import Mathlib

/-!
Shallow embedding of the Marcumat.js ripple engine, for checking the
specification claims against the code.

The repository contains several variants of the same engine:
  * `src/src/wave-effect.ts`, first half ("Material-Premium edition"),
    called the Material variant below;
  * `src/src/wave-effect.ts`, second half ("patched for CSS-driven
    durations + fade-offset"), called the Hardened variant below;
  * `src/unnamed/part_000` (`wake-effect.js`, the earliest variant with a
    global rate limiter), called the Wake variant below;
  * `src/unnamed/part_002` (TS port with overlay and node recycling),
    called the Pooled variant below.

Numbers manipulated by the code are JS doubles; they are modelled as exact
rationals (ℚ) where only comparisons, min/max and ring operations occur,
and as reals (ℝ) where `Math.hypot`/`Math.sqrt` appear.  The properties
proved do not depend on floating-point rounding.
-/

/-! ### Performance tiers and per-surface ripple caps

Source: `detectPerformanceLevel` returns one of three tiers; the cap comes
from `getMaxRipples`:
  * Material variant (`wave-effect.ts` lines 115-119, constant line 23):
    low → 1, medium → 2, otherwise `MAX_RIPPLES_PER_ELEMENT = 2`;
  * Hardened variant (`wave-effect.ts` lines 552-556, constant line 489):
    low → 1, medium → 2, otherwise `MAX_RIPPLES_PER_ELEMENT = 1`;
  * Pooled variant (`part_002` lines 98-102, constant line 35):
    low → 1, medium → 2, otherwise `MAX_RIPPLES_PER_ELEMENT = 2`. -/

inductive PerfLevel where
  | low
  | medium
  | high
deriving DecidableEq

def MAX_RIPPLES_PER_ELEMENT_MATERIAL : Nat := 2

def MAX_RIPPLES_PER_ELEMENT_HARDENED : Nat := 1

def MAX_RIPPLES_PER_ELEMENT_POOLED : Nat := 2

def getMaxRipplesMaterial (p : PerfLevel) : Nat :=
  if p = .low then 1
  else if p = .medium then 2
  else MAX_RIPPLES_PER_ELEMENT_MATERIAL

def getMaxRipplesHardened (p : PerfLevel) : Nat :=
  if p = .low then 1
  else if p = .medium then 2
  else MAX_RIPPLES_PER_ELEMENT_HARDENED

def getMaxRipplesPooled (p : PerfLevel) : Nat :=
  if p = .low then 1
  else if p = .medium then 2
  else MAX_RIPPLES_PER_ELEMENT_POOLED

/-! ### Animation scheduler

Source: `schedule` (`wave-effect.ts` lines 55-69, identically in
`part_002` lines 55-68).  `schedule(fn)` pushes `fn` on a shared queue and
requests one animation frame if none is pending.  The frame callback runs
every queued task inside `try/catch` (exceptions swallowed), then clears
the queue and resets the pending id.

A task is modelled as a state transformer returning the new state together
with a flag recording whether it threw; effects performed before the throw
persist, and the catch block discards the exception. -/

def SchedTask (σ : Type) : Type := σ → σ × Bool

structure Scheduler (σ : Type) where
  queue : List (SchedTask σ)
  rafPending : Bool

/-- `q.push(fn); if (!rafId) rafId = requestAnimationFrame(...)`:
the task is appended and a frame is pending afterwards. -/
def schedule {σ : Type} (sch : Scheduler σ) (t : SchedTask σ) : Scheduler σ :=
  { queue := sch.queue ++ [t], rafPending := true }

/-- The body of the frame callback: `for (...) { try { q[i](); } catch {} }`.
Each task runs once, in order; a throwing task still contributes the
effects it performed before throwing. -/
def flushQueue {σ : Type} (q : List (SchedTask σ)) (s : σ) : σ :=
  q.foldl (fun st t => (t st).1) s

/-- The whole frame callback: run every task, then `q.length = 0` and
`rafId = null`. -/
def runFrame {σ : Type} (sch : Scheduler σ) (s : σ) : Scheduler σ × σ :=
  (⟨[], false⟩, flushQueue sch.queue s)

/-- Observational harness for the scheduler: a task that appends its id to
a log and then either returns or throws, according to `fail`. -/
def logTask (i : Nat) (fail : Bool) : SchedTask (List Nat) :=
  fun log => (log ++ [i], fail)

/-! ### Per-surface active set and eviction

Source: the scheduled body of `onPointerDown` (Material variant,
`wave-effect.ts` lines 300-357; the Hardened variant lines 847-926 and the
Pooled variant `part_002` lines 372-448 have the same set/eviction logic).

The surface's active ripples live in a JS `Set` (insertion ordered).  On
activation:
  * if `set.size >= getMaxRipples()`, the first (oldest) entry is passed to
    `fadeOutAndRemoveRipple`, which adds the `fading` class; the entry is
    deleted from the set only later, by the `transitionend` listener or the
    fallback `setTimeout` — both asynchronous;
  * a node is acquired and added to the set in `expanding` state
    (`animating` class queued for the next frame).

`completeFades` models every pending fade finishing (each `onEnd` handler
deleting its ripple from the set). -/

inductive RippleStatus where
  | expanding
  | fading
deriving DecidableEq

structure RippleInst where
  rid : Nat
  status : RippleStatus
deriving DecidableEq

/-- `set.values().next()` followed by `fadeOutAndRemoveRipple(it.value, el)`:
the oldest entry gets the `fading` class but stays in the set. -/
def fadeFirstActive : List RippleInst → List RippleInst
  | [] => []
  | r :: rest => { r with status := .fading } :: rest

/-- One activation of the scheduled `onPointerDown` body on a surface whose
active set is `s`, with tier cap `cap`: evict (fade) the oldest entry when
at capacity, then add the freshly acquired ripple. -/
def activateRipple (cap : Nat) (newId : Nat) (s : List RippleInst) : List RippleInst :=
  let s2 := if cap ≤ s.length then fadeFirstActive s else s
  s2 ++ [⟨newId, .expanding⟩]

/-- All pending `fadeOutAndRemoveRipple` cleanups run (`transitionend` or
fallback timer): every `fading` entry is deleted from the set. -/
def completeFades (s : List RippleInst) : List RippleInst :=
  s.filter (fun r => r.status == .expanding)

/-! ### Wake variant: global throttle and per-surface minimum interval

Source: `part_000` lines 232-257.  `allowGlobalRipple` enforces a global
minimum interval (`GLOBAL_MIN_RIPPLE_INTERVAL = 100` ms) and a global cap
(`GLOBAL_MAX_RIPPLES = 7`); `onPointerDown` then enforces the per-surface
minimum interval (`MIN_RIPPLE_INTERVAL = 150` ms) and a single active
ripple per surface.  Surfaces are keyed by an id (standing for element
identity in the `WeakMap`s); `created` logs the ripple nodes appended.
The geometry and listener wiring of the creation path do not affect the
suppression logic and are summarised by the `created`/`activeRipple`
updates. -/

structure WakeGlobal where
  lastGlobalRippleTime : ℚ
  globalActiveWavesCount : Nat
  lastAllowed : Nat → Option ℚ
  activeRipple : Nat → Option Nat
  created : List (Nat × Nat)

def allowGlobalRipple (g : WakeGlobal) (t : ℚ) : Bool × WakeGlobal :=
  if t - g.lastGlobalRippleTime < 100 then (false, g)
  else if 7 ≤ g.globalActiveWavesCount then (false, g)
  else (true, { g with lastGlobalRippleTime := t,
                       globalActiveWavesCount := g.globalActiveWavesCount + 1 })

/-- The Wake variant's `onPointerDown` at time `t` on surface `el` (primary
button assumed).  `globalActiveWavesCount` decrements use truncated
subtraction, matching `Math.max(0, n - 1)`. -/
def wakeOnPointerDown (el : Nat) (t : ℚ) (newId : Nat) (g : WakeGlobal) : WakeGlobal :=
  match allowGlobalRipple g t with
  | (false, g1) => g1
  | (true, g1) =>
    let last := (g1.lastAllowed el).getD 0
    if t - last < 150 then
      { g1 with globalActiveWavesCount := g1.globalActiveWavesCount - 1 }
    else if (g1.activeRipple el).isSome then
      { g1 with globalActiveWavesCount := g1.globalActiveWavesCount - 1 }
    else
      { g1 with lastAllowed := fun e => if e = el then some t else g1.lastAllowed e,
                activeRipple := fun e => if e = el then some newId else g1.activeRipple e,
                created := g1.created ++ [(el, newId)] }

/-! ### Ripple node pool (Pooled variant)

Source: `part_002` lines 157-189.  A visual node is modelled by its class
list and its inline style (an ordered association list: `setProperty`
overwrites, `removeProperty` deletes, `getProp` reads).  The template node
(`_tpl`, lines 47-53) carries the classes `ripple dynamic-halo-pro
recycled` and no inline style. -/

structure RNode where
  classes : List String
  style : List (String × String)
deriving DecidableEq

def removeClass (n : RNode) (c : String) : RNode :=
  { n with classes := n.classes.filter (fun x => x != c) }

def addClass (n : RNode) (c : String) : RNode :=
  if n.classes.contains c then n else { n with classes := n.classes ++ [c] }

def setProp (n : RNode) (k v : String) : RNode :=
  { n with style := (k, v) :: n.style.filter (fun p => p.1 != k) }

def removeProp (n : RNode) (k : String) : RNode :=
  { n with style := n.style.filter (fun p => p.1 != k) }

def getProp (n : RNode) (k : String) : Option String :=
  (n.style.find? (fun p => p.1 == k)).map (fun p => p.2)

def tplNode : RNode :=
  ⟨["ripple", "dynamic-halo-pro", "recycled"], []⟩

/-- The reset performed by `getRippleNode` (`part_002` lines 157-176) on
the node it hands out: remove the animation classes and the listed style
properties. -/
def resetAcquiredNode (n : RNode) : RNode :=
  removeProp (removeProp (removeProp (removeProp (removeProp (removeProp
    (removeProp (removeProp (removeProp (removeProp (removeProp
      (removeClass (removeClass (removeClass n "animating") "fading") "recycled")
      "transition") "transform") "opacity") "will-change") "left") "top")
      "width") "height") "background") "--ripple-duration") "--ripple-final-scale"

/-- The node-state mutation performed by `recycleRippleNode`
(`part_002` lines 178-189) before the node is pushed back to the pool. -/
def recycledNodeState (n : RNode) : RNode :=
  removeProp (setProp (setProp (addClass
    (removeClass (removeClass n "animating") "fading") "recycled")
    "opacity" "0") "visibility" "hidden") "will-change"

/-- `pool.pop()` takes the most recently pushed node (JS `Array.pop`), or a
clone of the template when the pool is empty; either way the acquired node
goes through the `getRippleNode` reset. -/
def getRippleNode (pool : List RNode) : RNode × List RNode :=
  match pool.getLast? with
  | some n => (resetAcquiredNode n, pool.dropLast)
  | none => (resetAcquiredNode tplNode, pool)

/-- `recycleRippleNode`: reset the node state, then
`if (d.pool.length < getMaxRipples()) d.pool.push(node)`. -/
def recycleRippleNode (pool : List RNode) (cap : Nat) (n : RNode) : List RNode :=
  if pool.length < cap then pool ++ [recycledNodeState n] else pool

/-- The inline style written by the scheduled `onPointerDown` body
(`part_002` lines 395-401): `cssText` assignment replaces the whole inline
style with exactly these declarations. -/
def pointerDownCssText (size left top dur scaleV bg shadow : String) :
    List (String × String) :=
  [("position", "absolute"), ("border-radius", "50%"), ("pointer-events", "none"),
   ("width", size), ("height", size), ("left", left), ("top", top),
   ("--ripple-duration", dur), ("--ripple-final-scale", scaleV),
   ("background", bg), ("transform", "scale(1) translate3d(0,0,0)"),
   ("backface-visibility", "hidden"), ("box-shadow", shadow),
   ("visibility", "visible"), ("opacity", "1")]

def applyPointerDownCss (n : RNode) (size left top dur scaleV bg shadow : String) :
    RNode :=
  { n with style := pointerDownCssText size left top dur scaleV bg shadow }

/-- `animateRipple` (`part_002` lines 340-351): will-change hint, transform
write, backface-visibility. -/
def animateRippleStyle (n : RNode) (transformV : String) : RNode :=
  setProp (setProp (setProp n "will-change" "transform, opacity")
    "transform" transformV) "backface-visibility" "hidden"

/-- The style/class writes at the start of `fadeOutAndRemoveRipple`
(`part_002` lines 196-201): `fading` class, fade-duration variable,
will-change hint. -/
def fadeOutStyle (n : RNode) (fadeDur : String) : RNode :=
  setProp (setProp (addClass n "fading") "--ripple-fade-duration" fadeDur)
    "will-change" "opacity,transform"

/-- A node at the end of one full activation on a Pooled-variant surface:
acquired from an empty pool (template clone), styled by `onPointerDown`,
animated, faded out.  Concrete parameter strings are representative values
computed by the source for an ordinary activation. -/
def usedRippleNode : RNode :=
  fadeOutStyle
    (animateRippleStyle
      (addClass
        (applyPointerDownCss (getRippleNode []).1
          "18px" "41px" "16px" "2500ms" "31.1" "radial-gradient(circle, rgba(16, 20, 28, 0.2) 0%, transparent 80%)"
          "0 4px 12px rgba(8, 12, 20, 0.04)")
        "animating")
      "translate3d(0,0,0) scale(31.1)")
    "800ms"

/-- The node re-acquired after `usedRippleNode` is recycled into an empty
pool (cap ≥ 1 in every tier) and `getRippleNode` pops it again. -/
def reacquiredRippleNode : RNode :=
  (getRippleNode (recycleRippleNode [] (getMaxRipplesPooled .high) usedRippleNode)).1

/-! ### Color resolution

Source: `getRippleColor`/`getDefaultRippleColor` (Material variant,
`wave-effect.ts` lines 361-399; textually identical logic in the Hardened
variant lines 929-961, `part_002` lines 451-483, and — modulo the cache
and attribute name `wake` — `part_000` lines 138-163).

Strings are modelled as `List Char`.  `jsWs` is the JS `\s` class
restricted to the white-space characters that occur in attribute values
(ASCII white-space and NBSP; the exotic Unicode space separators are not
modelled).  `jsTrim` is `String.prototype.trim`. -/

def jsWs (c : Char) : Bool :=
  c == ' ' || c == '\t' || c == '\n' || c == '\r' ||
  c == Char.ofNat 11 || c == Char.ofNat 12 || c == Char.ofNat 160

def jsTrim (l : List Char) : List Char :=
  ((l.dropWhile jsWs).reverse.dropWhile jsWs).reverse

/-- The character class `[#a-zA-Z0-9(),.\s]` of `reWaveColor`. -/
def isWaveClassChar (c : Char) : Bool :=
  c == '#' || c.isAlpha || c.isDigit || c == '(' || c == ')' ||
  c == ',' || c == '.' || jsWs c

/-- Matching the tail `\s*[=:]?\s*([#a-zA-Z0-9(),.\s]+)` of `reWaveColor`
against the characters following a candidate `c`, with JS backtracking
semantics: the two `\s*` are greedy, the separator is optional, and the
capture is a greedy non-empty run of class characters.  When the only way
to make the capture non-empty is to hand it back a white-space character
from a preceding `\s*` (white-space is itself in the class), the capture
is that single white-space character. -/
def tryMatchAfterC (r : List Char) : Option (List Char) :=
  let w := r.takeWhile jsWs
  let r1 := r.dropWhile jsWs
  match r1 with
  | sep :: rest =>
    if sep == '=' || sep == ':' then
      let m := rest.takeWhile jsWs
      let r3 := rest.dropWhile jsWs
      let cap := r3.takeWhile isWaveClassChar
      if 0 < cap.length then some cap
      else
        match m.getLast? with
        | some ch => some [ch]
        | none =>
          match w.getLast? with
          | some ch => some [ch]
          | none => none
    else
      let cap := r1.takeWhile isWaveClassChar
      if 0 < cap.length then some cap
      else
        match w.getLast? with
        | some ch => some [ch]
        | none => none
  | [] =>
    match w.getLast? with
    | some ch => some [ch]
    | none => none

/-- Leftmost-match scan for `/(?:^|\s)c\s*[=:]?\s*([...]+)/i`: a match can
start at a `c`/`C` that sits at the beginning of the string or right after
a white-space character. -/
def scanWaveColor : Bool → List Char → Option (List Char)
  | _, [] => none
  | boundary, c :: rest =>
    if boundary && (c == 'c' || c == 'C') then
      match tryMatchAfterC rest with
      | some cap => some cap
      | none => scanWaveColor (jsWs c) rest
    else scanWaveColor (jsWs c) rest

/-- `reWaveColor.exec(attr)`, returning capture group 1. -/
def reWaveColorExec (attr : List Char) : Option (List Char) :=
  scanWaveColor true attr

/-- A surface element as the color resolver sees it: the two attributes and
the computed value of the `--ripple-default-color` custom property
(`[]` when the property is unset, as `getPropertyValue` then returns the
empty string). -/
structure Elem where
  dataRippleColor : Option (List Char)
  waveAttr : Option (List Char)
  rippleDefaultColor : List Char
deriving DecidableEq

/-- The ancestor walk inside `getDefaultRippleColor`: the first element of
the chain (element first, then its ancestors) whose trimmed
`--ripple-default-color` is non-empty; `none` when the walk exhausts the
chain.  The `try/catch` around `getComputedStyle` is not modelled (reads
are assumed not to throw). -/
def defaultColorWalk : List Elem → Option (List Char)
  | [] => none
  | e :: rest =>
    let val := jsTrim e.rippleDefaultColor
    if 0 < val.length then some val else defaultColorWalk rest

/-- The per-surface color cache of `getDefaultRippleColor`
(`wave-effect.ts` lines 361-383): `color` is `undefined` before the first
walk (`none`), afterwards the walk result (`some found`); `colorStamp` is
the time of that walk. -/
structure ElDataColor where
  color : Option (Option (List Char))
  colorStamp : Option ℚ
deriving DecidableEq

def freshElData : ElDataColor := ⟨none, none⟩

/-- `getDefaultRippleColor(el)` at time `t` with cache TTL `ttl`: return
the cached value while the stamp is truthy and fresh, otherwise walk the
chain and restamp. -/
def getDefaultRippleColor (chain : List Elem) (d : ElDataColor) (t ttl : ℚ) :
    Option (List Char) × ElDataColor :=
  match d.colorStamp, d.color with
  | some stamp, some cached =>
    if stamp ≠ 0 ∧ t - stamp < ttl then (cached, d)
    else
      let found := defaultColorWalk chain
      (found, ⟨some found, some t⟩)
  | _, _ =>
    let found := defaultColorWalk chain
    (found, ⟨some found, some t⟩)

/-- `getRippleColor(el)` (`wave-effect.ts` lines 385-399): the
`data-ripple-color` override, else the `c=`/`c:` directive inside the
`wave` attribute, else the inherited custom property walk, else `null`
(the final `|| null`). -/
def getRippleColor (el : Elem) (ancestors : List Elem) (d : ElDataColor)
    (t ttl : ℚ) : Option (List Char) × ElDataColor :=
  let dataBranch : Option (List Char) :=
    match el.dataRippleColor with
    | some v => if 0 < (jsTrim v).length then some (jsTrim v) else none
    | none => none
  match dataBranch with
  | some v => (some v, d)
  | none =>
    let attr := el.waveAttr.getD []
    let waveBranch : Option (List Char) :=
      match reWaveColorExec attr with
      | some g => if 0 < (jsTrim g).length then some (jsTrim g) else none
      | none => none
    match waveBranch with
    | some v => (some v, d)
    | none => getDefaultRippleColor (el :: ancestors) d t ttl

/-! ### Gradient computation

Source: `computeGradient` (Material variant, `wave-effect.ts` lines
131-175; Hardened variant lines 564-587; Pooled variant `part_002` lines
110-133 — the Hardened and Pooled bodies are identical).

A computed gradient is modelled structurally: the default gradient, a
function-color gradient (output prefix, joined first three channels,
ripple alpha) or a hex-suffix gradient.  Rendering this value to the CSS
string is a fixed injective formatting step and is not re-modelled; the
first-stop opacities appearing in the rendered strings are recovered by
`firstStopOpacityMaterial`/`firstStopOpacityPooled` below.

`jsParseFloat` models `parseFloat` on plain decimal literals (optional
sign, digits, optional fraction; exponent notation does not occur in CSS
color channels and is not modelled); `none` stands for `NaN`, and `NaN`
contaminates the subsequent `Math.max`/`Math.min`, hence the `Option`
threading of the ripple alpha. -/

inductive GradientOut where
  | defaultG
  | funcG (outPfx : List Char) (core : List Char) (rippleAlpha : Option ℚ)
  | hexG (color : List Char)
deriving DecidableEq

/-- Case-insensitive literal prefix match returning the matched original
characters and the remainder. -/
def stripPfxCI : List Char → List Char → Option (List Char × List Char)
  | [], rest => some ([], rest)
  | _ :: _, [] => none
  | p :: ps, c :: cs =>
    if c.toLower == p then
      (stripPfxCI ps cs).map (fun pr => (c :: pr.1, pr.2))
    else none

/-- The `\(([^)]+)\)$` tail of `reFuncColor`: an opening parenthesis, a
non-empty inner text free of `)`, and a closing parenthesis ending the
string. -/
def matchParenTail (rest : List Char) : Option (List Char) :=
  match rest with
  | '(' :: more =>
    match more.reverse with
    | ')' :: innerRev =>
      let inner := innerRev.reverse
      if 0 < inner.length && !(inner.contains ')') then some inner else none
    | _ => none
  | _ => none

def tryFuncPattern (pat : List Char) (cleaned : List Char) :
    Option (List Char × List Char) :=
  match stripPfxCI pat cleaned with
  | some (m, rest) => (matchParenTail rest).map (fun inner => (m, inner))
  | none => none

/-- `reFuncColor.exec(cleaned)` for `/^(rgba?|hsla?)\(([^)]+)\)$/i`,
returning (group 1 in original case, group 2).  The alternation tries
`rgba` before `rgb` and `hsla` before `hsl`, matching the regex's greedy
`a?`. -/
def reFuncColorExec (cleaned : List Char) : Option (List Char × List Char) :=
  (tryFuncPattern (['r', 'g', 'b', 'a']) cleaned).orElse fun _ =>
  (tryFuncPattern (['r', 'g', 'b']) cleaned).orElse fun _ =>
  (tryFuncPattern (['h', 's', 'l', 'a']) cleaned).orElse fun _ =>
  tryFuncPattern (['h', 's', 'l']) cleaned

/-- JS `String.prototype.split(',')`. -/
def splitOnComma (l : List Char) : List (List Char) :=
  l.foldr
    (fun c acc =>
      if c == ',' then [] :: acc
      else
        match acc with
        | a :: as_ => (c :: a) :: as_
        | [] => [[c]])
    [[]]

def digitsToNat (l : List Char) : Nat :=
  l.foldl (fun n c => n * 10 + (c.toNat - 48)) 0

/-- The character-level part of `parseFloat` on a channel string: skip
leading white-space, optional sign, integer digits, optional `.` and
fraction digits; `none` when no digit is found (`NaN`). -/
def jsParseFloatParts (s : List Char) : Option (Bool × List Char × List Char) :=
  let s0 := s.dropWhile jsWs
  let signNeg : Bool := match s0 with
    | '-' :: _ => true
    | _ => false
  let s1 : List Char := match s0 with
    | '-' :: r => r
    | '+' :: r => r
    | _ => s0
  let intPart := s1.takeWhile Char.isDigit
  let s2 := s1.dropWhile Char.isDigit
  let fracPart : List Char := match s2 with
    | '.' :: r => r.takeWhile Char.isDigit
    | _ => []
  if intPart.length = 0 ∧ fracPart.length = 0 then none
  else some (signNeg, intPart, fracPart)

/-- The numeric value of the parsed sign/integer/fraction triple. -/
def ratOfParts (p : Bool × List Char × List Char) : ℚ :=
  let mag : ℚ := (digitsToNat p.2.1 : ℚ) +
    (digitsToNat p.2.2 : ℚ) / ((10 : ℚ) ^ p.2.2.length)
  if p.1 then -mag else mag

/-- `parseFloat` on a channel string. -/
def jsParseFloat (s : List Char) : Option ℚ :=
  (jsParseFloatParts s).map ratOfParts

/-- `m[1].startsWith('hsl')` (case-sensitive, on the characters matched in
their original case). -/
def startsWithHsl : List Char → Bool
  | 'h' :: 's' :: 'l' :: _ => true
  | _ => false

def joinComma : List (List Char) → List Char
  | [] => []
  | [a] => a
  | a :: rest => a ++ ',' :: joinComma rest

def rgbaChars : List Char := ['r', 'g', 'b', 'a']

def hslaChars : List Char := ['h', 's', 'l', 'a']

/-- The cache-free body of the Material `computeGradient`
(`wave-effect.ts` lines 131-175): falsy color → default gradient; a
function-style color is decomposed, `alpha` is `parts[3]` parsed (or 1
when absent), `rippleAlpha = Math.min(1, Math.max(alpha, 0.18))`, and the
gradient stops carry `rippleAlpha * 0.55 / 0.25 / 0.10`; any other string
gets hex-alpha suffixes. -/
def computeGradientPureMaterial (color : Option (List Char)) : GradientOut :=
  match color with
  | none => .defaultG
  | some c =>
    if c.length = 0 then .defaultG
    else
      let cleaned := c.filter (fun ch => !(jsWs ch))
      match reFuncColorExec cleaned with
      | some (m1, inner) =>
        let parts := splitOnComma inner
        let alpha : Option ℚ :=
          match parts.get? 3 with
          | some p => jsParseFloat p
          | none => some 1
        let rippleAlpha := alpha.map (fun a => min 1 (max a (18 / 100)))
        let outPfx := if startsWithHsl m1 then hslaChars else rgbaChars
        .funcG outPfx (joinComma (parts.take 3)) rippleAlpha
      | none => .hexG c

/-- The cache-free body of the Pooled/Hardened `computeGradient`
(`part_002` lines 110-133 and `wave-effect.ts` lines 564-587): same
decomposition with floor `0.15`, and a single colored stop at opacity
`rippleAlpha`. -/
def computeGradientPurePooled (color : Option (List Char)) : GradientOut :=
  match color with
  | none => .defaultG
  | some c =>
    if c.length = 0 then .defaultG
    else
      let cleaned := c.filter (fun ch => !(jsWs ch))
      match reFuncColorExec cleaned with
      | some (m1, inner) =>
        let parts := splitOnComma inner
        let alpha : Option ℚ :=
          match parts.get? 3 with
          | some p => jsParseFloat p
          | none => some 1
        let rippleAlpha := alpha.map (fun a => min 1 (max a (15 / 100)))
        let outPfx := if startsWithHsl m1 then hslaChars else rgbaChars
        .funcG outPfx (joinComma (parts.take 3)) rippleAlpha
      | none => .hexG c

/-- Opacity of the first (0%) stop of the rendered Material gradient:
`0.25` in the default gradient, `rippleAlpha * 0.55` for a function color,
hex suffix `55` (85/255) otherwise. -/
def firstStopOpacityMaterial : GradientOut → Option ℚ
  | .defaultG => some (25 / 100)
  | .funcG _ _ r => r.map (fun x => x * (55 / 100))
  | .hexG _ => some (85 / 255)

/-- Opacity of the first (10%) stop of the rendered Pooled/Hardened
gradient: `0.2` in the default gradient, `rippleAlpha` for a function
color, hex suffix `26` (38/255) otherwise. -/
def firstStopOpacityPooled : GradientOut → Option ℚ
  | .defaultG => some (2 / 10)
  | .funcG _ _ r => r
  | .hexG _ => some (38 / 255)

/-- The comma-split channel list of a function-style color, as
`computeGradient` sees it (white-space removed, then the `reFuncColor`
match). -/
def funcColorParts (c : List Char) : Option (List (List Char)) :=
  (reFuncColorExec (c.filter (fun ch => !(jsWs ch)))).map
    (fun pr => splitOnComma pr.2)

/-! ### The global gradient cache

Source: the `_map` cache inside `computeGradient` (`wave-effect.ts` lines
134-144 and 173): keyed by the raw color string, an entry holds the
computed value and its timestamp; a lookup within `localTTL` returns the
stored value, otherwise the value is recomputed and the entry
overwritten. -/

abbrev GradCache : Type := List (List Char × GradientOut × ℚ)

def gradCacheLookup (gm : GradCache) (k : List Char) : Option (GradientOut × ℚ) :=
  (gm.find? (fun e => e.1 == k)).map (fun e => e.2)

def gradCacheSet (gm : GradCache) (k : List Char) (v : GradientOut) (t : ℚ) :
    GradCache :=
  (k, v, t) :: gm.filter (fun e => !(e.1 == k))

/-- The Material `computeGradient` with its cache: falsy color short-
circuits before the cache; a fresh entry is returned as-is; a missing or
expired entry is recomputed (the recomputation is exactly the cache-free
body, `computeGradientPureMaterial`) and stored at the current time. -/
def computeGradientCachedMaterial (color : Option (List Char)) (t ttl : ℚ)
    (gm : GradCache) : GradientOut × GradCache :=
  match color with
  | none => (.defaultG, gm)
  | some c =>
    if c.length = 0 then (.defaultG, gm)
    else
      match gradCacheLookup gm c with
      | some (v, tv) =>
        if t - tv < ttl then (v, gm)
        else (computeGradientPureMaterial (some c),
              gradCacheSet gm c (computeGradientPureMaterial (some c)) t)
      | none =>
        (computeGradientPureMaterial (some c),
         gradCacheSet gm c (computeGradientPureMaterial (some c)) t)

/-- Invariant of the gradient cache: every stored entry's value is the
cache-free recomputation of its own key. -/
def GradCacheOK (gm : GradCache) : Prop :=
  ∀ e ∈ gm, e.2.1 = computeGradientPureMaterial (some e.1)

/-! ### Geometry

Source: `maximalExpandedCoverageRadius` (Material variant,
`wave-effect.ts` lines 233-251, expansion factor `1.9`; Pooled variant
`part_002` lines 231-247, expansion factor `1.8` and two extra
centre-distance terms; the Hardened variant lines 698-714 is the Pooled
formula with factor `0`).  `Math.hypot`/`Math.sqrt` are modelled over ℝ;
the sequential `if (v > max) max = v` updates are the fold of `max`. -/

noncomputable def jsHypot (a b : ℝ) : ℝ := Real.sqrt (a * a + b * b)

noncomputable def sqrt2 : ℝ := Real.sqrt 2

noncomputable def maximalExpandedCoverageRadiusMaterial (x y width height : ℝ) : ℝ :=
  let dx0 := x
  let dx1 := width - x
  let dy0 := y
  let dy1 := height - y
  let m1 := max dx0 dy0
  let m2 := max m1 dx1
  let m3 := max m2 dy1
  let m4 := max m3 (jsHypot dx0 dy0)
  let m5 := max m4 (jsHypot dx1 dy0)
  let m6 := max m5 (jsHypot dx0 dy1)
  let m7 := max m6 (jsHypot dx1 dy1)
  let m8 := max m7 (jsHypot width height / 2)
  let expand := max width height * (19 / 10)
  max (m8 * sqrt2 + expand) 28

noncomputable def maximalExpandedCoverageRadiusPooled (x y width height : ℝ) : ℝ :=
  let dx0 := x
  let dx1 := width - x
  let dy0 := y
  let dy1 := height - y
  let m1 := max dx0 dy0
  let m2 := max m1 dx1
  let m3 := max m2 dy1
  let m4 := max m3 (jsHypot dx0 dy0)
  let m5 := max m4 (jsHypot dx1 dy0)
  let m6 := max m5 (jsHypot dx0 dy1)
  let m7 := max m6 (jsHypot dx1 dy1)
  let m8 := max m7 |width / 2 - x|
  let m9 := max m8 |height / 2 - y|
  let m10 := max m9 (jsHypot width height / 2)
  let expand := max width height * (18 / 10)
  max (m10 * sqrt2 + expand) 28

/-! ### Predicates used in the claim statements -/

/-- The `data-ripple-color` branch of `getRippleColor` yields nothing: the
attribute is missing or blank after trimming. -/
def dataOverrideAbsent (el : Elem) : Prop :=
  ∀ v, el.dataRippleColor = some v → (jsTrim v).length = 0

/-- The `wave`-attribute directive branch yields nothing: the pattern does
not match, or its capture is blank after trimming. -/
def waveDirectiveAbsent (el : Elem) : Prop :=
  ∀ g, reWaveColorExec (el.waveAttr.getD []) = some g → (jsTrim g).length = 0

/-- Invariant of the per-surface color cache: whatever is cached is the
ancestor-walk result for this surface's chain (true of a fresh surface
vacuously, and of every state the resolver itself produces while the
chain's computed styles are unchanged). -/
def colorCacheOK (chain : List Elem) (d : ElDataColor) : Prop :=
  ∀ c, d.color = some c → c = defaultColorWalk chain

/-! ## Helper lemmas -/

theorem foldl_schedule_queue (jobs : List (Nat × Bool)) (sc : Scheduler (List Nat)) :
    (jobs.foldl (fun sc jb => schedule sc (logTask jb.1 jb.2)) sc).queue
      = sc.queue ++ jobs.map (fun jb => logTask jb.1 jb.2) := by
  induction jobs generalizing sc with
  | nil => simp
  | cons a rest ih =>
    simp only [List.foldl_cons, List.map_cons]
    rw [ih]
    simp [schedule]

theorem flushQueue_logTasks (jobs : List (Nat × Bool)) (log0 : List Nat) :
    flushQueue (jobs.map (fun jb => logTask jb.1 jb.2)) log0
      = log0 ++ jobs.map (fun jb => jb.1) := by
  induction jobs generalizing log0 with
  | nil => simp [flushQueue]
  | cons a rest ih =>
    simp only [List.map_cons, flushQueue, List.foldl_cons] at ih ⊢
    rw [show (logTask a.1 a.2 log0).1 = log0 ++ [a.1] from rfl, ih]
    simp

theorem fadeFirstActive_map_rid (s : List RippleInst) :
    (fadeFirstActive s).map (fun r => r.rid) = s.map (fun r => r.rid) := by
  cases s <;> rfl

theorem fadeFirstActive_length (s : List RippleInst) :
    (fadeFirstActive s).length = s.length := by
  cases s <;> rfl

theorem completeFades_step_bound (cap i : Nat) (s : List RippleInst)
    (hcap : 1 ≤ cap) (hs : s.length ≤ cap) :
    (completeFades (activateRipple cap i s)).length ≤ cap := by
  by_cases h : cap ≤ s.length
  · have hlen : s.length = cap := le_antisymm hs h
    cases s with
    | nil =>
      have h0 : cap = 0 := hlen.symm
      omega
    | cons r rest =>
      have h' : cap ≤ rest.length + 1 := by simpa using h
      have hact : activateRipple cap i (r :: rest)
          = ({ r with status := RippleStatus.fading } :: rest)
            ++ [⟨i, RippleStatus.expanding⟩] := by
        simp [activateRipple, h', fadeFirstActive]
      rw [hact]
      have h1 : completeFades (({ r with status := RippleStatus.fading } :: rest)
            ++ [⟨i, RippleStatus.expanding⟩])
          = completeFades (rest ++ [⟨i, RippleStatus.expanding⟩]) := by
        simp [completeFades]
      rw [h1]
      have h2 : (completeFades (rest ++ [(⟨i, RippleStatus.expanding⟩ : RippleInst)])).length
          ≤ rest.length + 1 := by
        unfold completeFades
        refine le_trans (List.length_filter_le _ _) ?_
        simp
      have h3 : rest.length + 1 = cap := by simpa using hlen
      omega
  · have hlt : s.length < cap := lt_of_not_ge h
    have hact : activateRipple cap i s = s ++ [⟨i, RippleStatus.expanding⟩] := by
      simp [activateRipple, h]
    rw [hact]
    have h2 : (completeFades (s ++ [(⟨i, RippleStatus.expanding⟩ : RippleInst)])).length
        ≤ s.length + 1 := by
      unfold completeFades
      refine le_trans (List.length_filter_le _ _) ?_
      simp
    omega

theorem completeFades_fold_bound (cap : Nat) (hcap : 1 ≤ cap) (ids : List Nat) :
    ∀ s : List RippleInst, s.length ≤ cap →
      (ids.foldl (fun st i => completeFades (activateRipple cap i st)) s).length ≤ cap := by
  induction ids with
  | nil => intro s hs; simpa using hs
  | cons i rest ih =>
    intro s hs
    simp only [List.foldl_cons]
    exact ih _ (completeFades_step_bound cap i s hcap hs)

theorem wake_suppress_aux (g1 : WakeGlobal) (el : Nat) (t0 t1 : ℚ) (id1 : Nat)
    (h1 : g1.lastAllowed el = some t0) (h2 : t1 - t0 < 150) :
    (wakeOnPointerDown el t1 id1 g1).created = g1.created
    ∧ (wakeOnPointerDown el t1 id1 g1).lastAllowed = g1.lastAllowed
    ∧ (wakeOnPointerDown el t1 id1 g1).activeRipple = g1.activeRipple := by
  by_cases hA : t1 - g1.lastGlobalRippleTime < 100
  · simp [wakeOnPointerDown, allowGlobalRipple, hA]
  · by_cases hB : 7 ≤ g1.globalActiveWavesCount
    · simp [wakeOnPointerDown, allowGlobalRipple, hA, hB]
    · simp [wakeOnPointerDown, allowGlobalRipple, hA, hB, h1, h2]

/-! ## Claim theorems -/

/-- Claim C4, counterexample: the Hardened variant's cap is not 1 for
every performance tier — on the medium tier `getMaxRipples` returns 2
(the `if (PERF_LEVEL === 'medium') return 2;` branch precedes the
`MAX_RIPPLES_PER_ELEMENT = 1` fallback). -/
theorem hardened_cap_medium_counterexample :
    getMaxRipplesHardened .medium = 2 ∧ ¬ getMaxRipplesHardened .medium = 1 := by
  decide

/-- Claim C4, amended: the per-surface cap is 1 for the low tier and 2
otherwise in the Material and Pooled variants; in the Hardened variant it
is 1 for the low and high tiers but 2 for the medium tier. -/
theorem maxRipples_tier_caps :
    (∀ p, getMaxRipplesMaterial p = if p = .low then 1 else 2)
    ∧ (∀ p, getMaxRipplesPooled p = if p = .low then 1 else 2)
    ∧ getMaxRipplesHardened .low = 1
    ∧ getMaxRipplesHardened .medium = 2
    ∧ getMaxRipplesHardened .high = 1 := by
  refine ⟨fun p => ?_, fun p => ?_, rfl, rfl, rfl⟩ <;> cases p <;> rfl

/-- Claim C6: tasks scheduled within one frame run in enqueue order,
each exactly once (each appends its id to the log, in order), a throwing
task does not prevent the remaining tasks from running (the `fail` flags
are arbitrary), and after the callback the queue is empty and the pending
flag is reset. -/
theorem scheduler_frame_order (jobs : List (Nat × Bool)) (log0 : List Nat) :
    (runFrame (jobs.foldl (fun sc jb => schedule sc (logTask jb.1 jb.2))
        (⟨[], false⟩ : Scheduler (List Nat))) log0).2
      = log0 ++ jobs.map (fun jb => jb.1)
    ∧ (runFrame (jobs.foldl (fun sc jb => schedule sc (logTask jb.1 jb.2))
        (⟨[], false⟩ : Scheduler (List Nat))) log0).1.queue = []
    ∧ (runFrame (jobs.foldl (fun sc jb => schedule sc (logTask jb.1 jb.2))
        (⟨[], false⟩ : Scheduler (List Nat))) log0).1.rafPending = false := by
  refine ⟨?_, rfl, rfl⟩
  show flushQueue (jobs.foldl (fun sc jb => schedule sc (logTask jb.1 jb.2))
      (⟨[], false⟩ : Scheduler (List Nat))).queue log0 = _
  rw [foldl_schedule_queue]
  simpa using flushQueue_logTasks jobs log0

/-- Claim C1, counterexample: with the medium-tier cap of 2, three
activations in close succession (before any forced fade has completed —
the evicted ripple leaves the active set only on `transitionend` or the
fallback timer) leave three ripple instances simultaneously in the
expanding/fading states on one surface, exceeding the cap. -/
theorem rippleCap_claim_counterexample :
    getMaxRipplesMaterial .medium = 2
    ∧ (activateRipple (getMaxRipplesMaterial .medium) 3
        (activateRipple (getMaxRipplesMaterial .medium) 2
          (activateRipple (getMaxRipplesMaterial .medium) 1 []))).length = 3
    ∧ ((activateRipple (getMaxRipplesMaterial .medium) 3
        (activateRipple (getMaxRipplesMaterial .medium) 2
          (activateRipple (getMaxRipplesMaterial .medium) 1 []))).filter
        (fun r => r.status == .expanding || r.status == .fading)).length = 3
    ∧ ¬ ((activateRipple (getMaxRipplesMaterial .medium) 3
        (activateRipple (getMaxRipplesMaterial .medium) 2
          (activateRipple (getMaxRipplesMaterial .medium) 1 []))).length
        ≤ getMaxRipplesMaterial .medium) := by
  decide

/-- Claim C1, amended: an activation at capacity forces the oldest entry
of the active set into `fading` and never silently drops any ripple (the
new instance is appended and all prior ids survive); the evicted instance
leaves the set only when its fade completes, so the instantaneous count
can exceed the cap, but if every forced fade completes before the next
activation the active count stays within the cap. -/
theorem rippleCap_eviction_behavior (cap newId : Nat) (s : List RippleInst)
    (hcap : 1 ≤ cap) :
    ((activateRipple cap newId s).map (fun r => r.rid)
      = s.map (fun r => r.rid) ++ [newId])
    ∧ (cap ≤ s.length → ∃ r rest, s = r :: rest ∧
        (activateRipple cap newId s).head? = some ⟨r.rid, .fading⟩)
    ∧ (∀ ids : List Nat,
        (ids.foldl (fun st i => completeFades (activateRipple cap i st)) []).length
          ≤ cap) := by
  refine ⟨?_, ?_, ?_⟩
  · unfold activateRipple
    by_cases h : cap ≤ s.length
    · simp [h, fadeFirstActive_map_rid]
    · simp [h]
  · intro h
    cases s with
    | nil =>
      have h0 : cap = 0 := by simpa using le_antisymm (by simpa using h) (Nat.zero_le _)
      omega
    | cons r rest =>
      refine ⟨r, rest, rfl, ?_⟩
      have h' : cap ≤ rest.length + 1 := by simpa using h
      have hact : activateRipple cap newId (r :: rest)
          = ({ r with status := RippleStatus.fading } :: rest)
            ++ [⟨newId, RippleStatus.expanding⟩] := by
        simp [activateRipple, h', fadeFirstActive]
      rw [hact]
      rfl
  · intro ids
    exact completeFades_fold_bound cap hcap ids [] (by simp)

/-- Witness for `rippleCap_eviction_behavior` at cap 2 with two expanding
ripples and activations 3 then a 1,2,3 trace. -/
theorem rippleCap_eviction_behavior_witness :
    ((activateRipple 2 3 [⟨1, .expanding⟩, ⟨2, .expanding⟩]).map (fun r => r.rid)
      = [1, 2, 3])
    ∧ (∃ r rest, ([⟨1, .expanding⟩, ⟨2, .expanding⟩] : List RippleInst) = r :: rest ∧
        (activateRipple 2 3 [⟨1, .expanding⟩, ⟨2, .expanding⟩]).head?
          = some ⟨r.rid, .fading⟩)
    ∧ (([1, 2, 3].foldl (fun st i => completeFades (activateRipple 2 i st)) []).length
        ≤ 2) := by
  have h := rippleCap_eviction_behavior 2 3 [⟨1, .expanding⟩, ⟨2, .expanding⟩]
    (by decide)
  exact ⟨by simpa using h.1, h.2.1 (by decide), h.2.2 [1, 2, 3]⟩

/-- Claim C9: in the Wake variant, a second pointer-down on the same
surface less than `MIN_RIPPLE_INTERVAL = 150` ms after a first one that
stamped the surface creates no new ripple and leaves the surface's ripple
state (`lastAllowed`, `activeRipples`, appended nodes) unchanged. -/
theorem wake_min_interval_suppresses (g : WakeGlobal) (el : Nat) (t0 t1 : ℚ)
    (id0 id1 : Nat)
    (h1 : (wakeOnPointerDown el t0 id0 g).lastAllowed el = some t0)
    (h2 : t1 - t0 < 150) :
    (wakeOnPointerDown el t1 id1 (wakeOnPointerDown el t0 id0 g)).created
      = (wakeOnPointerDown el t0 id0 g).created
    ∧ (wakeOnPointerDown el t1 id1 (wakeOnPointerDown el t0 id0 g)).lastAllowed
      = (wakeOnPointerDown el t0 id0 g).lastAllowed
    ∧ (wakeOnPointerDown el t1 id1 (wakeOnPointerDown el t0 id0 g)).activeRipple
      = (wakeOnPointerDown el t0 id0 g).activeRipple :=
  wake_suppress_aux (wakeOnPointerDown el t0 id0 g) el t0 t1 id1 h1 h2

/-- Witness for `wake_min_interval_suppresses`: from the initial global
state, an activation at t = 200 stamps surface 5, and a second one at
t = 260 (60 ms later) is suppressed. -/
theorem wake_min_interval_suppresses_witness :
    (wakeOnPointerDown 5 200 10 ⟨0, 0, fun _ => none, fun _ => none, []⟩).lastAllowed 5
      = some 200
    ∧ (260 : ℚ) - 200 < 150
    ∧ ((wakeOnPointerDown 5 260 11
          (wakeOnPointerDown 5 200 10 ⟨0, 0, fun _ => none, fun _ => none, []⟩)).created
        = (wakeOnPointerDown 5 200 10 ⟨0, 0, fun _ => none, fun _ => none, []⟩).created) := by
  have hl : (wakeOnPointerDown 5 200 10
      ⟨0, 0, fun _ => none, fun _ => none, []⟩).lastAllowed 5 = some 200 := by
    norm_num [wakeOnPointerDown, allowGlobalRipple]
  have h := wake_min_interval_suppresses
    ⟨0, 0, fun _ => none, fun _ => none, []⟩ 5 200 260 10 11 hl (by norm_num)
  exact ⟨hl, by norm_num, h.1⟩

theorem find?_filter_ne (st : List (String × String)) (k k2 : String) (hne : k ≠ k2) :
    (st.filter (fun q => q.1 != k2)).find? (fun q => q.1 == k)
      = st.find? (fun q => q.1 == k) := by
  induction st with
  | nil => rfl
  | cons p rest ih =>
    by_cases hp : p.1 = k2
    · have hpk : (p.1 == k) = false := by
        simp [hp]
        exact fun hh => hne hh.symm
      have hpf : (p.1 != k2) = false := by simp [hp]
      simp [List.filter_cons, hpf, List.find?_cons, hpk, ih]
    · have hpf : (p.1 != k2) = true := by simp [hp]
      simp only [List.filter_cons, hpf, if_pos]
      rw [List.find?_cons, List.find?_cons, ih]

theorem find?_filter_self (st : List (String × String)) (k : String) :
    (st.filter (fun q => q.1 != k)).find? (fun q => q.1 == k) = none := by
  rw [List.find?_eq_none]
  intro x hx
  have hpred := (List.mem_filter.mp hx).2
  simpa using hpred

theorem getProp_removeProp (n : RNode) (k k2 : String) :
    getProp (removeProp n k2) k = if k = k2 then none else getProp n k := by
  by_cases h : k = k2
  · subst h
    simp only [getProp, removeProp, if_pos rfl]
    rw [find?_filter_self]
    rfl
  · simp only [getProp, removeProp, if_neg h]
    rw [find?_filter_ne _ _ _ h]

theorem getProp_setProp (n : RNode) (k k2 v : String) :
    getProp (setProp n k2 v) k = if k = k2 then some v else getProp n k := by
  by_cases h : k = k2
  · subst h
    simp only [getProp, setProp]
    rw [List.find?_cons]
    simp
  · simp only [getProp, setProp, if_neg h]
    rw [List.find?_cons]
    have hkv : ((k2, v).1 == k) = false := by
      simp
      exact fun hh => h hh.symm
    rw [hkv]
    simp only [Bool.false_eq_true, if_false]
    rw [find?_filter_ne _ _ _ h]

theorem getProp_removeClass (n : RNode) (c k : String) :
    getProp (removeClass n c) k = getProp n k := rfl

theorem getProp_addClass (n : RNode) (c k : String) :
    getProp (addClass n c) k = getProp n k := by
  unfold addClass
  split <;> rfl

theorem classes_removeProp (n : RNode) (k : String) :
    (removeProp n k).classes = n.classes := rfl

theorem classes_setProp (n : RNode) (k v : String) :
    (setProp n k v).classes = n.classes := rfl

theorem not_mem_filter_self (cls : List String) (c : String) :
    c ∉ cls.filter (fun x => x != c) := by
  intro hmem
  have hpred := (List.mem_filter.mp hmem).2
  simp at hpred

theorem mem_filter_ne (cls : List String) (c c2 : String) (h : c2 ≠ c) :
    c2 ∈ cls.filter (fun x => x != c) ↔ c2 ∈ cls := by
  rw [List.mem_filter]
  simp [h]

theorem resetAcquiredNode_classes (m : RNode) :
    (resetAcquiredNode m).classes
      = ((m.classes.filter (fun x => x != "animating")).filter
          (fun x => x != "fading")).filter (fun x => x != "recycled") := rfl

/-- After the `getRippleNode` reset, none of the three animation classes
remains. -/
theorem resetAcquiredNode_no_anim_classes (m : RNode) :
    "animating" ∉ (resetAcquiredNode m).classes
    ∧ "fading" ∉ (resetAcquiredNode m).classes
    ∧ "recycled" ∉ (resetAcquiredNode m).classes := by
  rw [resetAcquiredNode_classes]
  refine ⟨?_, ?_, ?_⟩
  · rw [mem_filter_ne _ _ _ (by decide), mem_filter_ne _ _ _ (by decide)]
    exact not_mem_filter_self _ _
  · rw [mem_filter_ne _ _ _ (by decide)]
    exact not_mem_filter_self _ _
  · exact not_mem_filter_self _ _

/-- After the `getRippleNode` reset, each of the eleven removed style
properties reads as absent. -/
theorem resetAcquiredNode_style_cleared (m : RNode) (k : String)
    (hk : k ∈ (["transition", "transform", "opacity", "will-change", "left",
      "top", "width", "height", "background", "--ripple-duration",
      "--ripple-final-scale"] : List String)) :
    getProp (resetAcquiredNode m) k = none := by
  unfold resetAcquiredNode
  fin_cases hk <;>
    simp [getProp_removeProp, getProp_removeClass]

theorem getDefaultRippleColor_fst (chain : List Elem) (d : ElDataColor) (t ttl : ℚ)
    (hok : colorCacheOK chain d) :
    (getDefaultRippleColor chain d t ttl).1 = defaultColorWalk chain := by
  unfold getDefaultRippleColor
  cases hstamp : d.colorStamp with
  | none => cases d.color <;> simp
  | some stamp =>
    cases hcol : d.color with
    | none => simp
    | some cached =>
      have := hok cached hcol
      by_cases hfresh : stamp ≠ 0 ∧ t - stamp < ttl
      · simp [hfresh, this]
      · simp [hfresh]

/-- Claim C5, counterexample: a node that went through one full Pooled
activation, was released into the pool, and was re-acquired still carries
inline styles from its prior use — `visibility:hidden` written by
`recycleRippleNode` and the `box-shadow` written by the activation's
`cssText` are not in `getRippleNode`'s reset list. -/
theorem pool_roundtrip_residual_counterexample :
    getProp reacquiredRippleNode "visibility" = some "hidden"
    ∧ getProp reacquiredRippleNode "box-shadow"
        = some "0 4px 12px rgba(8, 12, 20, 0.04)"
    ∧ ¬ (reacquiredRippleNode.style = []) := by
  refine ⟨rfl, rfl, ?_⟩
  decide

/-- Claim C5, amended: a node released into a surface's pool and then
re-acquired carries none of the animation classes
(`animating`/`fading`/`recycled`) and none of the eleven style properties
cleared by `getRippleNode` (transition, transform, opacity, will-change,
left, top, width, height, background, --ripple-duration,
--ripple-final-scale); other inline properties written during its prior
use (such as `visibility:hidden` or `box-shadow`) persist until
overwritten. -/
theorem pool_roundtrip_reset (n : RNode) (pool : List RNode) (cap : Nat)
    (hroom : pool.length < cap) :
    (∀ c ∈ (["animating", "fading", "recycled"] : List String),
      c ∉ (getRippleNode (recycleRippleNode pool cap n)).1.classes)
    ∧ (∀ k ∈ (["transition", "transform", "opacity", "will-change", "left",
        "top", "width", "height", "background", "--ripple-duration",
        "--ripple-final-scale"] : List String),
      getProp (getRippleNode (recycleRippleNode pool cap n)).1 k = none) := by
  have hpool : recycleRippleNode pool cap n = pool ++ [recycledNodeState n] := by
    simp [recycleRippleNode, hroom]
  have hacq : (getRippleNode (recycleRippleNode pool cap n)).1
      = resetAcquiredNode (recycledNodeState n) := by
    rw [hpool]
    simp [getRippleNode, List.getLast?_concat]
  rw [hacq]
  constructor
  · intro c hc
    have h3 := resetAcquiredNode_no_anim_classes (recycledNodeState n)
    fin_cases hc
    · exact h3.1
    · exact h3.2.1
    · exact h3.2.2
  · intro k hk
    exact resetAcquiredNode_style_cleared _ k hk

/-- Witness for `pool_roundtrip_reset`: the empty pool with the high-tier
Pooled cap (2) and the concretely used node. -/
theorem pool_roundtrip_reset_witness :
    (∀ c ∈ (["animating", "fading", "recycled"] : List String),
      c ∉ (getRippleNode (recycleRippleNode [] (getMaxRipplesPooled .high)
        usedRippleNode)).1.classes)
    ∧ (∀ k ∈ (["transition", "transform", "opacity", "will-change", "left",
        "top", "width", "height", "background", "--ripple-duration",
        "--ripple-final-scale"] : List String),
      getProp (getRippleNode (recycleRippleNode [] (getMaxRipplesPooled .high)
        usedRippleNode)).1 k = none) :=
  pool_roundtrip_reset usedRippleNode [] (getMaxRipplesPooled .high) (by decide)

/-- Claim C7: precedence of the color resolver — a non-blank
`data-ripple-color` wins; otherwise a non-blank `c=`/`c:` directive match
in the `wave` attribute wins; otherwise the first non-empty inherited
`--ripple-default-color` walking up from the element wins; otherwise the
result is `null` (default gradient). -/
theorem getRippleColor_precedence (el : Elem) (anc : List Elem) (d : ElDataColor)
    (t ttl : ℚ) (hcache : colorCacheOK (el :: anc) d) :
    (∀ v, el.dataRippleColor = some v → 0 < (jsTrim v).length →
      (getRippleColor el anc d t ttl).1 = some (jsTrim v))
    ∧ (dataOverrideAbsent el →
        ∀ g, reWaveColorExec (el.waveAttr.getD []) = some g →
          0 < (jsTrim g).length →
          (getRippleColor el anc d t ttl).1 = some (jsTrim g))
    ∧ (dataOverrideAbsent el → waveDirectiveAbsent el →
        (getRippleColor el anc d t ttl).1 = defaultColorWalk (el :: anc))
    ∧ (dataOverrideAbsent el → waveDirectiveAbsent el →
        defaultColorWalk (el :: anc) = none →
        (getRippleColor el anc d t ttl).1 = none) := by
  have hdata : ∀ (hab : dataOverrideAbsent el),
      (match el.dataRippleColor with
        | some v => if 0 < (jsTrim v).length then some (jsTrim v) else none
        | none => none : Option (List Char)) = none := by
    intro hab
    cases hv : el.dataRippleColor with
    | none => rfl
    | some v =>
      have := hab v hv
      simp [this]
  have hwave : ∀ (_ : dataOverrideAbsent el) (hwb : waveDirectiveAbsent el),
      (match reWaveColorExec (el.waveAttr.getD []) with
        | some g => if 0 < (jsTrim g).length then some (jsTrim g) else none
        | none => none : Option (List Char)) = none := by
    intro _ hwb
    cases hg : reWaveColorExec (el.waveAttr.getD []) with
    | none => rfl
    | some g =>
      have := hwb g hg
      simp [this]
  refine ⟨?_, ?_, ?_, ?_⟩
  · intro v hv hlen
    unfold getRippleColor
    simp [hv, hlen]
  · intro hab g hg hlen
    unfold getRippleColor
    rw [hdata hab]
    simp [hg, hlen]
  · intro hab hwb
    unfold getRippleColor
    rw [hdata hab]
    simp only
    rw [hwave hab hwb]
    simp only
    exact getDefaultRippleColor_fst (el :: anc) d t ttl hcache
  · intro hab hwb hnone
    unfold getRippleColor
    rw [hdata hab]
    simp only
    rw [hwave hab hwb]
    simp only
    rw [getDefaultRippleColor_fst (el :: anc) d t ttl hcache]
    exact hnone

/-- Witness for `getRippleColor_precedence`: four concrete surfaces, one
per precedence level (override attribute, `wave` directive, inherited
custom property, nothing). -/
theorem getRippleColor_precedence_witness :
    (getRippleColor ⟨some ((" red ").toList), some (("c=blue").toList),
        ("green").toList⟩ [] freshElData 0 20000).1 = some (jsTrim ((" red ").toList))
    ∧ (getRippleColor ⟨none, some (("c=blue").toList), ("green").toList⟩
        [] freshElData 0 20000).1 = some (jsTrim (("blue").toList))
    ∧ (getRippleColor ⟨none, some (("x").toList), (" green ").toList⟩
        [] freshElData 0 20000).1
      = defaultColorWalk [⟨none, some (("x").toList), (" green ").toList⟩]
    ∧ (getRippleColor ⟨none, none, []⟩ [] freshElData 0 20000).1 = none := by
  have hfresh : ∀ chain, colorCacheOK chain freshElData :=
    fun chain c h => Option.noConfusion h
  have habs : ∀ wv dc, dataOverrideAbsent (⟨none, wv, dc⟩ : Elem) :=
    fun wv dc v h => Option.noConfusion h
  have hA := getRippleColor_precedence
    ⟨some ((" red ").toList), some (("c=blue").toList), ("green").toList⟩
    [] freshElData 0 20000 (hfresh _)
  have hB := getRippleColor_precedence
    ⟨none, some (("c=blue").toList), ("green").toList⟩
    [] freshElData 0 20000 (hfresh _)
  have hC := getRippleColor_precedence
    ⟨none, some (("x").toList), (" green ").toList⟩
    [] freshElData 0 20000 (hfresh _)
  have hD := getRippleColor_precedence ⟨none, none, []⟩ [] freshElData 0 20000
    (hfresh _)
  have hwaveC : waveDirectiveAbsent (⟨none, some (("x").toList),
      (" green ").toList⟩ : Elem) := by
    intro g h
    have hn : reWaveColorExec ((⟨none, some (("x").toList),
        (" green ").toList⟩ : Elem).waveAttr.getD []) = none := by decide
    rw [hn] at h
    exact Option.noConfusion h
  have hwaveD : waveDirectiveAbsent (⟨none, none, []⟩ : Elem) := by
    intro g h
    have hn : reWaveColorExec ((⟨none, none, []⟩ : Elem).waveAttr.getD [])
        = none := by decide
    rw [hn] at h
    exact Option.noConfusion h
  refine ⟨?_, ?_, ?_, ?_⟩
  · exact hA.1 ((" red ").toList) rfl (by decide)
  · exact hB.2.1 (habs _ _) (("blue").toList) (by decide) (by decide)
  · exact hC.2.2.1 (habs _ _) hwaveC
  · exact hD.2.2.2 (habs _ _) hwaveD (by decide)

theorem jsParseFloat_one : jsParseFloat (("1").toList) = some 1 := by
  rw [jsParseFloat,
    show jsParseFloatParts (("1").toList) = some (false, ['1'], []) from by decide]
  simp only [Option.map_some', Option.some.injEq]
  unfold ratOfParts
  norm_num [show digitsToNat ['1'] = 1 from by decide,
    show digitsToNat ([] : List Char) = 0 from rfl]

theorem jsParseFloat_half : jsParseFloat (("0.5").toList) = some (1 / 2) := by
  rw [jsParseFloat,
    show jsParseFloatParts (("0.5").toList) = some (false, ['0'], ['5']) from by decide]
  simp only [Option.map_some', Option.some.injEq]
  unfold ratOfParts
  norm_num [show digitsToNat ['0'] = 0 from by decide,
    show digitsToNat ['5'] = 5 from by decide]

theorem computeGradientPureMaterial_rgba1 :
    computeGradientPureMaterial (some (("rgba(10,20,30,1)").toList))
      = .funcG rgbaChars (("10,20,30").toList) (some 1) := by
  have hlen : ¬ ((("rgba(10,20,30,1)").toList).length = 0) := by decide
  have hre : reFuncColorExec ((("rgba(10,20,30,1)").toList).filter
      (fun ch => !(jsWs ch))) = some (rgbaChars, ("10,20,30,1").toList) := by decide
  have hget : (splitOnComma (("10,20,30,1").toList)).get? 3
      = some (("1").toList) := by decide
  have hcore : joinComma ((splitOnComma (("10,20,30,1").toList)).take 3)
      = ("10,20,30").toList := by decide
  simp only [computeGradientPureMaterial, hlen, if_false, hre, hget,
    jsParseFloat_one, hcore, Option.map_some',
    show startsWithHsl rgbaChars = false from rfl, Bool.false_eq_true]
  rw [max_eq_left (by norm_num : (18 / 100 : ℚ) ≤ 1), min_self]

/-- Claim C2, counterexample: in the Material variant the first gradient
stop is written at opacity `rippleAlpha * 0.55`, so for
`rgba(10,20,30,1)` (alpha 1) the first stop opacity is `0.55`, not
`max(1, 0.18) = 1`. -/
theorem gradient_first_stop_material_counterexample :
    firstStopOpacityMaterial
        (computeGradientPureMaterial (some (("rgba(10,20,30,1)").toList)))
      = some (11 / 20)
    ∧ ¬ (firstStopOpacityMaterial
        (computeGradientPureMaterial (some (("rgba(10,20,30,1)").toList)))
      = some (max 1 (18 / 100))) := by
  rw [computeGradientPureMaterial_rgba1]
  simp only [firstStopOpacityMaterial, Option.map_some', Option.some.injEq]
  rw [max_eq_left (by norm_num : (18 / 100 : ℚ) ≤ 1)]
  norm_num

/-- Claim C2, amended: in the Pooled/Hardened `computeGradient` the first
stop opacity of a valid function-style color with parsed alpha `a ≤ 1` is
`max(a, 0.15)`, and 1 when the alpha channel is absent; in the Material
variant the first stop opacity is additionally scaled by `0.55`. -/
theorem gradient_first_stop_opacity (c : List Char) (parts : List (List Char))
    (hc : 0 < c.length) (hp : funcColorParts c = some parts) :
    (parts.get? 3 = none →
      firstStopOpacityPooled (computeGradientPurePooled (some c)) = some 1)
    ∧ (∀ p a, parts.get? 3 = some p → jsParseFloat p = some a → a ≤ 1 →
      firstStopOpacityPooled (computeGradientPurePooled (some c))
        = some (max a (15 / 100))) := by
  unfold funcColorParts at hp
  obtain ⟨pr, hre, hparts⟩ := Option.map_eq_some'.mp hp
  have hlen : ¬ c.length = 0 := by omega
  constructor
  · intro hnone
    rw [← hparts] at hnone
    simp only [computeGradientPurePooled, if_neg hlen, hre, hnone,
      firstStopOpacityPooled, Option.map_some']
    rw [max_eq_left (by norm_num : (15 / 100 : ℚ) ≤ 1), min_self]
  · intro p a hsome hparse ha
    rw [← hparts] at hsome
    simp only [computeGradientPurePooled, if_neg hlen, hre, hsome, hparse,
      firstStopOpacityPooled, Option.map_some']
    rw [min_eq_right (max_le ha (by norm_num : (15 / 100 : ℚ) ≤ 1))]

/-- Witness for `gradient_first_stop_opacity`: `rgb(1,2,3)` (alpha absent)
and `rgba(0,0,0,0.5)` (alpha 0.5). -/
theorem gradient_first_stop_opacity_witness :
    firstStopOpacityPooled (computeGradientPurePooled
        (some (("rgb(1,2,3)").toList))) = some 1
    ∧ firstStopOpacityPooled (computeGradientPurePooled
        (some (("rgba(0,0,0,0.5)").toList))) = some (max (1 / 2) (15 / 100)) := by
  have h1 := gradient_first_stop_opacity (("rgb(1,2,3)").toList)
    [("1").toList, ("2").toList, ("3").toList] (by decide) (by decide)
  have h2 := gradient_first_stop_opacity (("rgba(0,0,0,0.5)").toList)
    [("0").toList, ("0").toList, ("0").toList, ("0.5").toList] (by decide) (by decide)
  exact ⟨h1.1 (by decide), h2.2 (("0.5").toList) (1 / 2) (by decide)
    jsParseFloat_half (by norm_num)⟩

theorem gradCacheLookup_pure (gm : GradCache) (k : List Char) (v : GradientOut)
    (tv : ℚ) (hok : GradCacheOK gm) (h : gradCacheLookup gm k = some (v, tv)) :
    v = computeGradientPureMaterial (some k) := by
  unfold gradCacheLookup at h
  obtain ⟨e, hfind, he2⟩ := Option.map_eq_some'.mp h
  have hmem : e ∈ gm := List.mem_of_find?_eq_some hfind
  have hpred : (e.1 == k) = true := by
    have := List.find?_some hfind
    simpa using this
  have hk : e.1 = k := by simpa using hpred
  have := hok e hmem
  rw [hk] at this
  rw [he2] at this
  simpa using this

/-- Claim C10: the global gradient cache is semantically transparent — on
any cache state whose entries hold the recomputation of their own key
(true of every state reachable from the empty cache), a call returns
exactly the cache-free recomputation of its color, whether it hits,
misses, or sees an expired entry, and the invariant is preserved; hence
the output depends only on the color. -/
theorem gradientCache_transparent (color : Option (List Char)) (t ttl : ℚ)
    (gm : GradCache) (hok : GradCacheOK gm) :
    (computeGradientCachedMaterial color t ttl gm).1
      = computeGradientPureMaterial color
    ∧ GradCacheOK (computeGradientCachedMaterial color t ttl gm).2 := by
  cases color with
  | none => exact ⟨rfl, hok⟩
  | some c =>
    by_cases hc : c.length = 0
    · constructor
      · simp [computeGradientCachedMaterial, computeGradientPureMaterial, hc]
      · simpa [computeGradientCachedMaterial, hc] using hok
    · have hsetOK : GradCacheOK
          (gradCacheSet gm c (computeGradientPureMaterial (some c)) t) := by
        intro e he
        rcases List.mem_cons.mp he with he1 | he2
        · rw [he1]
        · exact hok e (List.mem_of_mem_filter he2)
      cases hl : gradCacheLookup gm c with
      | none =>
        constructor
        · simp [computeGradientCachedMaterial, hc, hl]
        · simpa [computeGradientCachedMaterial, hc, hl] using hsetOK
      | some vt =>
        obtain ⟨v, tv⟩ := vt
        by_cases hfresh : t - tv < ttl
        · constructor
          · simp only [computeGradientCachedMaterial, if_neg hc, hl, if_pos hfresh]
            exact gradCacheLookup_pure gm c v tv hok hl
          · simpa [computeGradientCachedMaterial, hc, hl, hfresh] using hok
        · constructor
          · simp [computeGradientCachedMaterial, hc, hl, hfresh]
          · simpa [computeGradientCachedMaterial, hc, hl, hfresh] using hsetOK

/-- Witness for `gradientCache_transparent`: a call on the empty cache. -/
theorem gradientCache_transparent_witness :
    (computeGradientCachedMaterial (some (("rgba(1,2,3,0.5)").toList))
        0 20000 []).1
      = computeGradientPureMaterial (some (("rgba(1,2,3,0.5)").toList))
    ∧ GradCacheOK (computeGradientCachedMaterial
        (some (("rgba(1,2,3,0.5)").toList)) 0 20000 []).2 :=
  gradientCache_transparent (some (("rgba(1,2,3,0.5)").toList)) 0 20000 []
    (fun e he => absurd he (List.not_mem_nil e))

theorem sqrt2_pos : 0 < sqrt2 := by
  simp only [sqrt2]
  exact Real.sqrt_pos.mpr (by norm_num)

theorem jsHypot_zero : jsHypot 0 0 = 0 := by
  simp [jsHypot]

/-- Claim C3: both cited coverage-radius formulas are total real-valued
functions whose result is always at least the floor 28 (hence finite and
strictly positive) for every input, and at the origin of a zero-sized
element the result is exactly the floor. -/
theorem coverage_radius_floor :
    (∀ x y w h : ℝ, 28 ≤ maximalExpandedCoverageRadiusMaterial x y w h)
    ∧ (∀ x y w h : ℝ, 0 < maximalExpandedCoverageRadiusMaterial x y w h)
    ∧ maximalExpandedCoverageRadiusMaterial 0 0 0 0 = 28
    ∧ (∀ x y w h : ℝ, 28 ≤ maximalExpandedCoverageRadiusPooled x y w h)
    ∧ (∀ x y w h : ℝ, 0 < maximalExpandedCoverageRadiusPooled x y w h)
    ∧ maximalExpandedCoverageRadiusPooled 0 0 0 0 = 28 := by
  have hM : ∀ x y w h : ℝ, 28 ≤ maximalExpandedCoverageRadiusMaterial x y w h :=
    fun x y w h => le_max_right _ _
  have hP : ∀ x y w h : ℝ, 28 ≤ maximalExpandedCoverageRadiusPooled x y w h :=
    fun x y w h => le_max_right _ _
  have hzM : maximalExpandedCoverageRadiusMaterial 0 0 0 0 = 28 := by
    simp only [maximalExpandedCoverageRadiusMaterial]
    norm_num [jsHypot_zero, max_self]
  have hzP : maximalExpandedCoverageRadiusPooled 0 0 0 0 = 28 := by
    simp only [maximalExpandedCoverageRadiusPooled]
    norm_num [jsHypot_zero, max_self]
  exact ⟨hM, fun x y w h => lt_of_lt_of_le (by norm_num) (hM x y w h), hzM,
    hP, fun x y w h => lt_of_lt_of_le (by norm_num) (hP x y w h), hzP⟩

theorem sqrt_12500_eq : Real.sqrt 12500 = 2 * Real.sqrt 3125 := by
  have h4 : Real.sqrt 4 = 2 := by
    rw [show (4 : ℝ) = 2 ^ 2 by norm_num]
    exact Real.sqrt_sq (by norm_num)
  rw [show (12500 : ℝ) = 4 * 3125 by norm_num,
    Real.sqrt_mul (by norm_num : (0 : ℝ) ≤ 4), h4]

theorem sqrt_3125_ge_50 : (50 : ℝ) ≤ Real.sqrt 3125 := by
  nlinarith [Real.sq_sqrt (by norm_num : (0 : ℝ) ≤ 3125), Real.sqrt_nonneg 3125]

theorem jsHypot_50_25 : jsHypot 50 25 = Real.sqrt 3125 := by
  simp only [jsHypot]
  norm_num

theorem jsHypot_100_50 : jsHypot 100 50 = Real.sqrt 12500 := by
  simp only [jsHypot]
  norm_num

theorem center_radius_material :
    maximalExpandedCoverageRadiusMaterial 50 25 100 50
      = Real.sqrt 3125 * sqrt2 + 190 := by
  have e1 : (100 : ℝ) - 50 = 50 := by norm_num
  have e2 : (50 : ℝ) - 25 = 25 := by norm_num
  have hd2 : Real.sqrt 12500 / 2 = Real.sqrt 3125 := by
    rw [sqrt_12500_eq]; ring
  have h50 := sqrt_3125_ge_50
  have h25 : (25 : ℝ) ≤ Real.sqrt 3125 := by linarith
  simp only [maximalExpandedCoverageRadiusMaterial, e1, e2, jsHypot_50_25,
    jsHypot_100_50, hd2]
  rw [max_eq_left (by norm_num : (25 : ℝ) ≤ 50), max_self,
    max_eq_left (by norm_num : (25 : ℝ) ≤ 50), max_eq_right h50, max_self,
    max_self, max_self, max_self,
    max_eq_left (by norm_num : (50 : ℝ) ≤ 100)]
  rw [max_eq_left]
  · norm_num
  · have := Real.sqrt_nonneg (3125 : ℝ)
    have h2 := le_of_lt sqrt2_pos
    nlinarith

theorem corner_radius_material_lower :
    Real.sqrt 12500 * sqrt2 + 190
      ≤ maximalExpandedCoverageRadiusMaterial 0 0 100 50 := by
  simp only [maximalExpandedCoverageRadiusMaterial, sub_zero, jsHypot_100_50]
  refine le_trans ?_ (le_max_left _ _)
  have hm : Real.sqrt 12500
      ≤ max (max (max (max (max (max (max (max (0 : ℝ) 0) 100) 50)
          (jsHypot 0 0)) (jsHypot 100 0)) (jsHypot 0 50)) (Real.sqrt 12500))
          (Real.sqrt 12500 / 2) :=
    le_trans (le_max_right _ _) (le_max_left _ _)
  have hexp : max (100 : ℝ) 50 * (19 / 10) = 190 := by
    rw [max_eq_left (by norm_num : (50 : ℝ) ≤ 100)]; norm_num
  rw [hexp]
  exact add_le_add_right (mul_le_mul_of_nonneg_right hm (le_of_lt sqrt2_pos)) _

theorem center_radius_pooled :
    maximalExpandedCoverageRadiusPooled 50 25 100 50
      = Real.sqrt 3125 * sqrt2 + 180 := by
  have e1 : (100 : ℝ) - 50 = 50 := by norm_num
  have e2 : (50 : ℝ) - 25 = 25 := by norm_num
  have ea1 : |(100 : ℝ) / 2 - 50| = 0 := by norm_num
  have ea2 : |(50 : ℝ) / 2 - 25| = 0 := by norm_num
  have hd2 : Real.sqrt 12500 / 2 = Real.sqrt 3125 := by
    rw [sqrt_12500_eq]; ring
  have h50 := sqrt_3125_ge_50
  have hpos : (0 : ℝ) ≤ Real.sqrt 3125 := Real.sqrt_nonneg _
  simp only [maximalExpandedCoverageRadiusPooled, e1, e2, ea1, ea2,
    jsHypot_50_25, jsHypot_100_50, hd2]
  rw [max_eq_left (by norm_num : (25 : ℝ) ≤ 50), max_self,
    max_eq_left (by norm_num : (25 : ℝ) ≤ 50), max_eq_right h50, max_self,
    max_self, max_self, max_eq_left hpos, max_eq_left hpos, max_self,
    max_eq_left (by norm_num : (50 : ℝ) ≤ 100)]
  rw [max_eq_left]
  · norm_num
  · have h2 := le_of_lt sqrt2_pos
    nlinarith

theorem corner_radius_pooled_lower :
    Real.sqrt 12500 * sqrt2 + 180
      ≤ maximalExpandedCoverageRadiusPooled 0 0 100 50 := by
  simp only [maximalExpandedCoverageRadiusPooled, sub_zero, jsHypot_100_50]
  refine le_trans ?_ (le_max_left _ _)
  have hm : Real.sqrt 12500
      ≤ max (max (max (max (max (max (max (max (max (max (0 : ℝ) 0) 100) 50)
          (jsHypot 0 0)) (jsHypot 100 0)) (jsHypot 0 50)) (Real.sqrt 12500))
          |(100 : ℝ) / 2|) |(50 : ℝ) / 2|) (Real.sqrt 12500 / 2) := by
    refine le_trans (le_trans (le_trans ?_ (le_max_left _ _)) (le_max_left _ _))
      (le_max_left _ _)
    exact le_max_right _ _
  have hexp : max (100 : ℝ) 50 * (18 / 10) = 180 := by
    rw [max_eq_left (by norm_num : (50 : ℝ) ≤ 100)]; norm_num
  rw [hexp]
  exact add_le_add_right (mul_le_mul_of_nonneg_right hm (le_of_lt sqrt2_pos)) _

/-- Claim C8: for a 100×50 element, the coverage radius of a corner
activation at (0,0) strictly exceeds that of a center activation at
(50,25), in both the Material and the Pooled formulas. -/
theorem corner_radius_exceeds_center :
    maximalExpandedCoverageRadiusMaterial 50 25 100 50
      < maximalExpandedCoverageRadiusMaterial 0 0 100 50
    ∧ maximalExpandedCoverageRadiusPooled 50 25 100 50
      < maximalExpandedCoverageRadiusPooled 0 0 100 50 := by
  have hlt : Real.sqrt 3125 < Real.sqrt 12500 :=
    Real.sqrt_lt_sqrt (by norm_num) (by norm_num)
  constructor
  · calc maximalExpandedCoverageRadiusMaterial 50 25 100 50
        = Real.sqrt 3125 * sqrt2 + 190 := center_radius_material
      _ < Real.sqrt 12500 * sqrt2 + 190 := by
          have := sqrt2_pos
          nlinarith
      _ ≤ maximalExpandedCoverageRadiusMaterial 0 0 100 50 :=
          corner_radius_material_lower
  · calc maximalExpandedCoverageRadiusPooled 50 25 100 50
        = Real.sqrt 3125 * sqrt2 + 180 := center_radius_pooled
      _ < Real.sqrt 12500 * sqrt2 + 180 := by
          have := sqrt2_pos
          nlinarith
      _ ≤ maximalExpandedCoverageRadiusPooled 0 0 100 50 :=
          corner_radius_pooled_lower
